import Mathlib

/-!
# The DHT value envelope (`value.h`)

A shallow embedding of `dht::ValueType`, `dht::Value::ValueFlags`, `dht::Value`
and the filter combinators of `src/daemon/src/ringdht/dhtcpp/value.h`, followed
by the properties of the envelope that the specification states.

Conventions of the embedding:
* `uint8_t`, `uint16_t`, `uint64_t` are `Fin 256`, `Fin 65536`, `Fin (2^64)`;
* `Blob` (`std::vector<uint8_t>`) is a list of bytes;
* a member function that mutates `*this` returns the new object;
* `crypto::PublicKey` is declared in `crypto.h`, which is not part of the
  sources at hand: it is a type parameter `K`, its `operator==` is the `BEq K`
  instance (no law is assumed of it) and its default constructor is the
  `Inhabited K` instance.
-/

namespace dht

/-- One octet, `uint8_t`. -/
abbrev Byte : Type := Fin 256

/-- The type `Blob`, a `std::vector<uint8_t>`. -/
abbrev Blob : Type := List Byte

/-- Modelled from the spec: `InfoHash` is declared in `infohash.h`, which is
missing; the spec calls it a "20-byte hash". -/
abbrev InfoHash : Type := { l : List Byte // l.length = 20 }

/-- Modelled from the spec: the default-constructed `InfoHash {}` of the missing
`infohash.h`, taken to be the all-zero hash. -/
def InfoHash.zero : InfoHash := ⟨List.replicate 20 0, by simp⟩

/-- The nested typedef `ValueType::Id`, a `uint16_t`. -/
abbrev ValueType.Id : Type := Fin 65536

/-- Modelled from the spec: `ValueType::USER_DATA` is only declared in `value.h`
(its definition is missing); the spec gives it id `0`. This is
`ValueType::USER_DATA.id`. -/
def ValueType.USER_DATA_id : ValueType.Id := 0

/-! ## `Value::ValueFlags` -/

/-- Source: `class ValueFlags final : public std::bitset<3>`: three bits, `b0` is bit 0
(the least significant one), `b1` is bit 1 and `b2` is bit 2. The default
constructor `ValueFlags() {}` leaves the bitset zero-initialised. -/
structure ValueFlags where
  b0 : Bool := false
  b1 : Bool := false
  b2 : Bool := false
deriving DecidableEq, Repr

namespace ValueFlags

/-- Source: `std::bitset<3>(unsigned long long val)`: bit `i` is bit `i` of `val`. -/
def ofULong (val : Nat) : ValueFlags :=
  { b0 := val.testBit 0, b1 := val.testBit 1, b2 := val.testBit 2 }

/-- Source: `ValueFlags(bool sign, bool encrypted, bool have_recipient = false)`. -/
def make (sign encrypted : Bool) (have_recipient : Bool := false) : ValueFlags :=
  ofULong ((if sign then 1 else 0) ||| (if encrypted then 2 else 0)
    ||| (if have_recipient then 4 else 0))

/-- Reading `(*this)[i]`. -/
def test (f : ValueFlags) (i : Fin 3) : Bool :=
  match i with
  | 0 => f.b0
  | 1 => f.b1
  | 2 => f.b2

/-- Writing `(*this)[i] = b`. -/
def set (f : ValueFlags) (i : Fin 3) (b : Bool) : ValueFlags :=
  match i with
  | 0 => { f with b0 := b }
  | 1 => { f with b1 := b }
  | 2 => { f with b2 := b }

/-- Source: `bool isSigned() const { return (*this)[0]; }` -/
def isSigned (f : ValueFlags) : Bool := f.test 0

/-- Source: `bool isEncrypted() const { return (*this)[1]; }` -/
def isEncrypted (f : ValueFlags) : Bool := f.test 1

/-- Source: `bool haveRecipient() const { return (*this)[2]; }` -/
def haveRecipient (f : ValueFlags) : Bool := f.test 2

end ValueFlags

/-! ## `Value` -/

/-- The nested typedef `Value::Id`, a `uint64_t`. -/
abbrev Value.Id : Type := Fin 18446744073709551616

/-- Source: `static const Id INVALID_ID {0};` -/
def Value.INVALID_ID : Value.Id := 0

/-- Source: `struct Value`, with the default member initialisers of the source. `K` is
`crypto::PublicKey`. -/
structure Value (K : Type) [Inhabited K] where
  id : Value.Id := Value.INVALID_ID
  flags : ValueFlags := {}
  owner : K := default
  recipient : InfoHash := InfoHash.zero
  type : ValueType.Id := ValueType.USER_DATA_id
  data : Blob := []
  seq : Fin 65536 := 0
  signature : Blob := []
  cypher : Blob := []

namespace Value

variable {K : Type} [Inhabited K]

/-- Source: `bool Value::isEncrypted() const { return flags.isEncrypted(); }` -/
def isEncrypted (v : Value K) : Bool := v.flags.isEncrypted

/-- Source: `bool Value::isSigned() const { return flags.isSigned(); }` -/
def isSigned (v : Value K) : Bool := v.flags.isSigned

/-- Source: `Value() {}` -/
def ctorDefault : Value K := {}

/-- Source: `Value (Id id) : id(id) {}` -/
def ctorId (id : Value.Id) : Value K := { id := id }

/-- Source: `Value(ValueType::Id t, const Blob& data, Id id = INVALID_ID)`. -/
def ctorGeneric (t : ValueType.Id) (data : Blob) (id : Value.Id := INVALID_ID) : Value K :=
  { id := id, type := t, data := data }

/-- Source: `Value(ValueType::Id t, const Serializable& d, Id id = INVALID_ID)`, which
stores `d.getPacked()`; the serializable object is given by the blob `packed`
that its `getPacked()` returns. -/
def ctorSerializable (t : ValueType.Id) (packed : Blob) (id : Value.Id := INVALID_ID) :
    Value K :=
  { id := id, type := t, data := packed }

/-- Source: `Value(const ValueType& t, const Serializable& d, Id id = INVALID_ID)
 : id(id), type(t.id), data(d.getPacked()) {}`; `packed` is `d.getPacked()`. The
type `ValueType` is declared further down, so the constructor takes `t.id`, the
only part of `t` it reads; `Value.Ctor.build` passes it. -/
def ctorTyped (tid : ValueType.Id) (packed : Blob) (id : Value.Id := INVALID_ID) : Value K :=
  { id := id, type := tid, data := packed }

/-- Source: `Value(const Blob& userdata)` and `Value(Blob&& userdata)`. -/
def ctorUserdata (userdata : Blob) : Value K := { data := userdata }

/-- The move constructor `Value(Value&& o)`: every field is taken from `o`. -/
def ctorMove (o : Value K) : Value K :=
  { id := o.id, flags := o.flags, owner := o.owner, recipient := o.recipient,
    type := o.type, data := o.data, seq := o.seq, signature := o.signature,
    cypher := o.cypher }

/-- Source: `Value::operator==`:
`id == o.id && (flags.isEncrypted() ? cypher == o.cypher :
 (owner == o.owner && type == o.type && data == o.data && signature == o.signature))`. -/
def operator_eq [BEq K] (a o : Value K) : Bool :=
  a.id == o.id &&
  (if a.flags.isEncrypted then a.cypher == o.cypher
   else (a.owner == o.owner && a.type == o.type && a.data == o.data
         && a.signature == o.signature))

/-- Source: `void setRecipient(const InfoHash& r) { recipient = r; flags[2] = true; }` -/
def setRecipient (v : Value K) (r : InfoHash) : Value K :=
  let v1 := { v with recipient := r }
  { v1 with flags := v1.flags.set 2 true }

/-- Source: `void setCypher(Blob&& c) { cypher = std::move(c); flags = {true, true, true}; }` -/
def setCypher (v : Value K) (c : Blob) : Value K :=
  let v1 := { v with cypher := c }
  { v1 with flags := ValueFlags.make true true true }

end Value

/-! ## `ValueType` -/

/-- Source: `typedef std::function<bool(InfoHash, std::shared_ptr<Value>&, InfoHash,
const sockaddr*, socklen_t)> StorePolicy;` A shared pointer is a value or null,
a `const sockaddr*` is the bytes it points to or null. -/
abbrev StorePolicy (K : Type) [Inhabited K] : Type :=
  InfoHash → Option (Value K) → InfoHash → Option Blob → Nat → Bool

/-- Source: `typedef std::function<bool(InfoHash, const std::shared_ptr<Value>&,
std::shared_ptr<Value>&, InfoHash, const sockaddr*, socklen_t)> EditPolicy;` -/
abbrev EditPolicy (K : Type) [Inhabited K] : Type :=
  InfoHash → Option (Value K) → Option (Value K) → InfoHash → Option Blob → Nat → Bool

/-- Source: `static bool DEFAULT_STORE_POLICY(...) { return true; }` -/
def ValueType.DEFAULT_STORE_POLICY {K : Type} [Inhabited K] : StorePolicy K :=
  fun _ _ _ _ _ => true

/-- Source: `static bool DEFAULT_EDIT_POLICY(...) { return false; }` -/
def ValueType.DEFAULT_EDIT_POLICY {K : Type} [Inhabited K] : EditPolicy K :=
  fun _ _ _ _ _ _ => false

/-- Source: `struct ValueType`, with the default member initialisers of the source;
`time_t` is an integer number of seconds. -/
structure ValueType (K : Type) [Inhabited K] where
  id : ValueType.Id := 0
  name : String := ""
  expiration : Int := 60 * 60
  storePolicy : StorePolicy K := ValueType.DEFAULT_STORE_POLICY
  editPolicy : EditPolicy K := ValueType.DEFAULT_EDIT_POLICY

namespace ValueType

variable {K : Type} [Inhabited K]

/-- Source: `ValueType () {}` -/
def ctorDefault : ValueType K := {}

/-- Source: `ValueType (Id id, std::string name, time_t e = 60 * 60)
 : id(id), name(name), expiration(e) {}` -/
def ctorNamed (id : ValueType.Id) (name : String) (e : Int := 60 * 60) : ValueType K :=
  { id := id, name := name, expiration := e }

/-- Source: `ValueType (Id id, std::string name, time_t e, StorePolicy&& sp, EditPolicy&& ep)`. -/
def ctorFull (id : ValueType.Id) (name : String) (e : Int) (sp : StorePolicy K)
    (ep : EditPolicy K) : ValueType K :=
  { id := id, name := name, expiration := e, storePolicy := sp, editPolicy := ep }

/-- Source: `bool operator==(const ValueType& o) { return id == o.id; }` -/
def operator_eq (a o : ValueType K) : Bool := a.id == o.id

end ValueType

/-! ## Filters

`typedef std::function<bool(const Value&)> Filter;` A C++ predicate may act on
the program state when it is called, so a filter is embedded as a state-passing
function over an arbitrary state type `σ`: called on a value in a state, it
yields its verdict and the state it leaves behind. -/

/-- Source: `Value::Filter`. -/
abbrev Filter (K : Type) [Inhabited K] (σ : Type) : Type := Value K → σ → Bool × σ

namespace Value

variable {K : Type} [Inhabited K] {σ : Type}

/-- Source: `static const Filter AllFilter() { return [](const Value&){return true;}; }` -/
def AllFilter : Filter K σ := fun _ s => (true, s)

/-- Source: `static Filter TypeFilter(const ValueType& t)`:
`const auto tid = t.id; return [tid](const Value& v) { return v.type == tid; };` -/
def TypeFilter (t : ValueType K) : Filter K σ :=
  let tid := t.id
  fun v s => (v.type == tid, s)

/-- Source: `static Filter chainFilters(Filter& f1, Filter& f2)`:
`return [f1,f2](const Value& v){ return f1(v) && f2(v); };` The operator `&&`
calls `f1`, and calls `f2` (in the state `f1` left) only when `f1` returned
true. -/
def chainFilters (f1 f2 : Filter K σ) : Filter K σ :=
  fun v s =>
    match f1 v s with
    | (true, s1) => f2 v s1
    | (false, s1) => (false, s1)

end Value

/-! ## Building a value through the public interface -/

/-- The constructors of `Value` that build a value from scratch, with their
arguments; a `Serializable` argument is given by the blob its `getPacked()`
returns. -/
inductive Value.Ctor (K : Type) [Inhabited K] where
  | default
  | ofId (id : Value.Id)
  | generic (t : ValueType.Id) (data : Blob) (id : Value.Id)
  | serializable (t : ValueType.Id) (packed : Blob) (id : Value.Id)
  | typed (t : ValueType K) (packed : Blob) (id : Value.Id)
  | userdata (userdata : Blob)

/-- The value a constructor call builds. -/
def Value.Ctor.build {K : Type} [Inhabited K] : Value.Ctor K → Value K
  | .default => Value.ctorDefault
  | .ofId id => Value.ctorId id
  | .generic t data id => Value.ctorGeneric t data id
  | .serializable t packed id => Value.ctorSerializable t packed id
  | .typed t packed id => Value.ctorTyped t.id packed id
  | .userdata b => Value.ctorUserdata b

/-- One step applied to a built value: a mutator call, or a move into a new
object through `Value(Value&&)`. -/
inductive Value.Step where
  | setRecipient (r : InfoHash)
  | setCypher (c : Blob)
  | move

/-- The effect of one step. -/
def Value.Step.apply {K : Type} [Inhabited K] (v : Value K) : Value.Step → Value K
  | .setRecipient r => v.setRecipient r
  | .setCypher c => v.setCypher c
  | .move => Value.ctorMove v

/-- A finite sequence of steps, applied from left to right. -/
def Value.runSteps {K : Type} [Inhabited K] (v : Value K) (steps : List Value.Step) : Value K :=
  steps.foldl Value.Step.apply v

/-- The sealing invariant as a predicate on flags: the encrypted bit implies the
signed bit and the has-recipient bit. -/
def ValueFlags.SealedOk (f : ValueFlags) : Prop :=
  f.isEncrypted = true → f.isSigned = true ∧ f.haveRecipient = true

/-! ## The wire format

`Value::pack`, `Value::unpackBody` and `Value::unpack` are declared in `value.h`
and defined in a file that is not part of the sources at hand, as are the
functions of `serialize.h` they build on. They are modelled from the
specification's description of the wire format. -/

/-- The byte order of the multi-byte integers of the wire format. The
specification asks for one order applied to every integer and leaves the choice
open. -/
inductive ByteOrder where
  | big
  | little
deriving DecidableEq, Repr

/-- The `w` bytes of `n` modulo `256 ^ w`, most significant byte first. -/
def encodeBE : Nat → Nat → Blob
  | 0, _ => []
  | w + 1, n => Fin.ofNat (n / 256 ^ w) :: encodeBE w n

/-- The number a byte string denotes, most significant byte first. -/
def decodeBE (bs : Blob) : Nat :=
  bs.foldl (fun acc b => acc * 256 + b.val) 0

/-- Modelled from the spec: the fixed-width integer encoding of the missing
`serialize.h` (`[id:8]`, `[type:2]`, `[seq:2]`): `w` bytes in the chosen byte
order. -/
def putUInt (ord : ByteOrder) (w n : Nat) : Blob :=
  match ord with
  | .big => encodeBE w n
  | .little => (encodeBE w n).reverse

/-- Modelled from the spec: reading a `w`-byte integer of the missing
`serialize.h`; fails when fewer than `w` bytes remain, otherwise yields the
number and the remaining input. -/
def getUInt (ord : ByteOrder) (w : Nat) (bs : Blob) : Option (Nat × Blob) :=
  if bs.length < w then none
  else
    let field := bs.take w
    some (decodeBE (match ord with | .big => field | .little => field.reverse), bs.drop w)

/-- Modelled from the spec: reading the `[recipient: 20-byte hash]` field of the
wire format (the `InfoHash` reader of the missing sources): the next twenty
bytes, or failure when fewer remain. -/
def getHash (bs : Blob) : Option (InfoHash × Blob) :=
  if h : (bs.take 20).length = 20 then some (⟨bs.take 20, h⟩, bs.drop 20) else none

/-- A writer and a reader for one kind of field; the reader fails with `none`
or yields the field and the remaining input. -/
structure Codec (α : Type) where
  put : α → Blob
  get : Blob → Option (α × Blob)

/-- The reader of a codec recovers `a`, and exactly the input that followed it,
from what the writer produced for `a`. -/
def Codec.RoundTrips {α : Type} (c : Codec α) (a : α) : Prop :=
  ∀ rest : Blob, c.get (c.put a ++ rest) = some (a, rest)

/-- Modelled from the spec: the serialization primitive of the missing
`serialize.h` and `crypto.h`, an external capability of which the specification
fixes no format: the byte order chosen for the integers, the "variable-length
key encoding" of `crypto::PublicKey` and the "length-prefixed bytes" encoding of
a `Blob`. -/
structure Serializer (K : Type) where
  order : ByteOrder
  key : Codec K
  blob : Codec Blob

/-- The serialization primitive round-trips the variable-length fields of `v`
that `pack` puts on the wire: the ciphertext of an encrypted value; the owner,
the data and, when signed, the signature of any other value. -/
def Serializer.Faithful {K : Type} [Inhabited K] (S : Serializer K) (v : Value K) : Prop :=
  if v.flags.isEncrypted = true then S.blob.RoundTrips v.cypher
  else S.key.RoundTrips v.owner ∧ S.blob.RoundTrips v.data
    ∧ (v.flags.isSigned = true → S.blob.RoundTrips v.signature)

/-- The value `to_ulong()` of the flags: bit `i` weighs `2 ^ i`. -/
def ValueFlags.toULong (f : ValueFlags) : Nat :=
  (if f.b0 then 1 else 0) + (if f.b1 then 2 else 0) + (if f.b2 then 4 else 0)

/-- Modelled from the spec: `Value::pack`, only declared in `value.h`. "If
`flags.isEncrypted()`, emit `id, flags, cypher`; otherwise emit `id, flags,
owner, recipient (if present), type, seq, data, signature (if present)`", with
the layouts `[id:8][flags:1][cypher: length-prefixed bytes]` and
`[id:8][flags:1][owner][recipient: 20-byte hash, present iff has-recipient]
[type:2][seq:2][data: length-prefixed bytes][signature: length-prefixed bytes,
present iff signed]`. -/
def Value.pack {K : Type} [Inhabited K] (S : Serializer K) (v : Value K) : Blob :=
  putUInt S.order 8 v.id.val ++ putUInt S.order 1 v.flags.toULong ++
    (if v.flags.isEncrypted then S.blob.put v.cypher
     else
      S.key.put v.owner
        ++ (if v.flags.haveRecipient then v.recipient.val else [])
        ++ putUInt S.order 2 v.type.val
        ++ putUInt S.order 2 v.seq.val
        ++ S.blob.put v.data
        ++ (if v.flags.isSigned then S.blob.put v.signature else []))

/-- Modelled from the spec: `Value::unpackBody`, only declared in `value.h`:
"read fields in the same order `pack` wrote them, branching on `flags` read
first to decide whether to expect a ciphertext blob or the full structured
record"; a field that is not on the wire keeps the value a default-constructed
`Value` has ("decoding never infers missing fields"). Yields the value (its id
still unset) and the remaining input. -/
def Value.unpackBody {K : Type} [Inhabited K] (S : Serializer K) (bs : Blob) :
    Option (Value K × Blob) := do
  let (fl, bs) ← getUInt S.order 1 bs
  let flags := ValueFlags.ofULong fl
  if flags.isEncrypted then
    let (cypher, bs) ← S.blob.get bs
    pure ({ flags := flags, cypher := cypher }, bs)
  else
    let (owner, bs) ← S.key.get bs
    let (recipient, bs) ← (if flags.haveRecipient then getHash bs else pure (InfoHash.zero, bs))
    let (type, bs) ← getUInt S.order 2 bs
    let (seq, bs) ← getUInt S.order 2 bs
    let (data, bs) ← S.blob.get bs
    let (signature, bs) ← (if flags.isSigned then S.blob.get bs else pure ([], bs))
    pure ({ flags := flags, owner := owner, recipient := recipient, type := Fin.ofNat type,
            data := data, seq := Fin.ofNat seq, signature := signature }, bs)

/-- Modelled from the spec: `Value::unpack`, only declared in `value.h`
(`unpack(bytes) -> Value | MalformedError`): the id, then the body; decoding
fails when a field cannot be read or when "trailing/insufficient bytes
remain". -/
def Value.unpack {K : Type} [Inhabited K] (S : Serializer K) (bs : Blob) : Option (Value K) := do
  let (id, bs) ← getUInt S.order 8 bs
  let (v, rest) ← Value.unpackBody S bs
  if rest = [] then pure { v with id := Fin.ofNat id } else none

/-! ## Sample values used to instantiate the theorems -/

/-- A hash whose twenty bytes are all `b`. -/
def sampleHash (b : Byte) : InfoHash := ⟨List.replicate 20 b, by simp⟩

/-- A sealed value: id 7, all flags set, ciphertext `[1, 2, 3]`. -/
def sealedA : Value Nat :=
  { id := 7, flags := ⟨true, true, true⟩, cypher := [1, 2, 3] }

/-- A second sealed value with the ciphertext of `sealedA` and another id. -/
def sealedB : Value Nat :=
  { id := 8, flags := ⟨true, true, true⟩, cypher := [1, 2, 3] }

/-- A sample serialization primitive over keys that are natural numbers: a key
is one byte, a blob is one length byte followed by its bytes. -/
def sampleSerializer : Serializer Nat where
  order := .big
  key :=
    { put := fun k => [Fin.ofNat k]
      get := fun bs =>
        match bs with
        | [] => none
        | b :: rest => some (b.val, rest) }
  blob :=
    { put := fun b => Fin.ofNat b.length :: b
      get := fun bs =>
        match bs with
        | [] => none
        | n :: rest =>
          if rest.length < n.val then none else some (rest.take n.val, rest.drop n.val) }

/-- A signed value addressed to a recipient. -/
def sampleSigned : Value Nat :=
  { id := 300, flags := ⟨true, false, true⟩, owner := 5, recipient := ⟨List.replicate 20 9, by simp⟩,
    type := 258, data := [10, 20], seq := 4, signature := [7, 7, 7] }

/-! ## `ServiceAnnouncement`

The member `sockaddr_storage ss` is raw memory that the accessors reinterpret as
a `sockaddr_in`. The types `sockaddr_storage` and `sockaddr_in` and the
functions `htons` and `ntohs` come from the platform headers; they are embedded
at the byte level, for a host of either byte order. -/

/-- The platform typedef `in_port_t`, a `uint16_t`. -/
abbrev in_port_t : Type := Fin 65536

/-- The platform type `struct sockaddr_storage` as the 128 bytes of memory it
occupies, indexed by address offset. In the layout taken here (the one of
Linux) `ss_family`, which is also `sin_family` of the `sockaddr_in` view, is the
16-bit integer at offsets 0 and 1, and `sin_port` is the 16-bit integer at
offsets 2 and 3; offsets 4 to 7 are `sin_addr`. -/
abbrev sockaddr_storage : Type := Fin 128 → Byte

/-- The two bytes, at increasing addresses, that hold the 16-bit integer `x` in
the memory of a host of the given byte order. -/
def storeU16 (host : ByteOrder) (x : Fin 65536) : Byte × Byte :=
  match host with
  | .big => (Fin.ofNat (x.val / 256), Fin.ofNat (x.val % 256))
  | .little => (Fin.ofNat (x.val % 256), Fin.ofNat (x.val / 256))

/-- The 16-bit integer a host of the given byte order reads from two bytes at
increasing addresses. -/
def loadU16 (host : ByteOrder) (b0 b1 : Byte) : Fin 65536 :=
  match host with
  | .big => Fin.ofNat (b0.val * 256 + b1.val)
  | .little => Fin.ofNat (b1.val * 256 + b0.val)

/-- The platform function `htons`: host to network (big-endian) byte order, the
identity on a big-endian host and a swap of the two bytes on a little-endian
one. -/
def htons (host : ByteOrder) (x : Fin 65536) : Fin 65536 :=
  match host with
  | .big => x
  | .little => Fin.ofNat (x.val % 256 * 256 + x.val / 256)

/-- The platform function `ntohs`: network to host byte order. -/
def ntohs (host : ByteOrder) (x : Fin 65536) : Fin 65536 :=
  match host with
  | .big => x
  | .little => Fin.ofNat (x.val % 256 * 256 + x.val / 256)

/-- Writing the two bytes `bs` at offsets `i` and `j` of the storage. -/
def sockaddr_storage.write2 (ss : sockaddr_storage) (i j : Fin 128) (bs : Byte × Byte) :
    sockaddr_storage :=
  fun k => if k = i then bs.1 else if k = j then bs.2 else ss k

/-- Reading the field `ss_family`. -/
def sockaddr_storage.ss_family (host : ByteOrder) (ss : sockaddr_storage) : Fin 65536 :=
  loadU16 host (ss 0) (ss 1)

/-- The assignment `ss.ss_family = x`. -/
def sockaddr_storage.set_ss_family (host : ByteOrder) (ss : sockaddr_storage) (x : Fin 65536) :
    sockaddr_storage :=
  ss.write2 0 1 (storeU16 host x)

/-- Reading `reinterpret_cast<const sockaddr_in*>(&ss)->sin_port`. -/
def sockaddr_storage.sin_port (host : ByteOrder) (ss : sockaddr_storage) : Fin 65536 :=
  loadU16 host (ss 2) (ss 3)

/-- The assignment `reinterpret_cast<sockaddr_in*>(&ss)->sin_port = x`. -/
def sockaddr_storage.set_sin_port (host : ByteOrder) (ss : sockaddr_storage) (x : Fin 65536) :
    sockaddr_storage :=
  ss.write2 2 3 (storeU16 host x)

/-- Source: `struct ServiceAnnouncement`, whose only data member is the private
`sockaddr_storage ss;` (no initialiser). -/
structure ServiceAnnouncement where
  ss : sockaddr_storage

namespace ServiceAnnouncement

/-- Source: `in_port_t getPort() const {
 return ntohs(reinterpret_cast<const sockaddr_in*>(&ss)->sin_port); }` -/
def getPort (host : ByteOrder) (a : ServiceAnnouncement) : in_port_t :=
  ntohs host (a.ss.sin_port host)

/-- Source: `void setPort(in_port_t p) {
 reinterpret_cast<sockaddr_in*>(&ss)->sin_port = htons(p); }` -/
def setPort (host : ByteOrder) (a : ServiceAnnouncement) (p : in_port_t) : ServiceAnnouncement :=
  { a with ss := a.ss.set_sin_port host (htons host p) }

/-- Source: `ServiceAnnouncement(in_port_t p = 0) { ss.ss_family = 0; setPort(p); }` The
member `ss` has no initialiser, so when the body starts its bytes are
indeterminate: `prior` stands for them, and only what holds for every `prior`
is a property of the constructor. -/
def ctorPort (host : ByteOrder) (prior : sockaddr_storage) (p : in_port_t := 0) :
    ServiceAnnouncement :=
  let a : ServiceAnnouncement := { ss := prior }
  let a1 := { a with ss := a.ss.set_ss_family host 0 }
  a1.setPort host p

/-- Source: `sockaddr_storage getPeerAddr() const { return ss; }` -/
def getPeerAddr (a : ServiceAnnouncement) : sockaddr_storage := a.ss

end ServiceAnnouncement

/-- Storage whose 128 bytes all hold `0xff`. -/
def sampleStorage : sockaddr_storage := fun _ => 255

/-- A plain value built by `Value(const Blob&)` from the user data `[9]`. -/
def plainV : Value Nat := Value.ctorUserdata [9]

/-- The value `plainV` after `setCypher` with the ciphertext `[1, 2, 3]`. -/
def sealedV : Value Nat := plainV.setCypher [1, 2, 3]

end dht

/-! # The UPnP controller (`upnp_control.cpp`)

The member functions of `ring::upnp::Controller` that add and remove port
mappings. The classes `Mapping` and `UPnPContext`, the enumeration `PortType`
and the declaration of `Controller` itself are in headers that are not part of
the sources at hand: the two classes are type parameters with the operations the
member functions call on them, and the members of `Controller` are those the
functions use. -/

namespace ring.upnp

/-- The enumeration `PortType`, of which the source names the values
`PortType::UDP` and `PortType::TCP`. -/
inductive PortType where
  | UDP
  | TCP
deriving DecidableEq, Repr

/-- The operations that `upnp_control.cpp` calls on a `Mapping` and on the
`UPnPContext`. A call on the context acts on the state of the context, so it
takes the state and returns the new one. -/
structure Api (Mapping Context : Type) where
  /-- The conversion `if (mapping)` of a `Mapping` to `bool`. -/
  isValid : Mapping → Bool
  /-- The call `mapping.getPortExternal()`. -/
  getPortExternal : Mapping → Fin 65536
  /-- The call `upnpContext_->addAnyMapping(port_desired, port_local, type,
  use_same_port, unique)`. -/
  addAnyMapping : Context → Fin 65536 → Fin 65536 → PortType → Bool → Bool → Mapping × Context
  /-- The call `upnpContext_->removeMapping(mapping)`. -/
  removeMapping : Context → Mapping → Context

/-- The type of `udpMappings_` and `tcpMappings_`, a `std::map` from the external
port to the mapping: its entries in iteration order. -/
abbrev PortMapLocal (Mapping : Type) : Type := List (Fin 65536 × Mapping)

/-- The call `std::map::emplace(key, value)`: the entry is inserted at its place
in key order when the map has no entry with that key, otherwise the map is left
as it is. -/
def PortMapLocal.emplace {Mapping : Type} (key : Fin 65536) (value : Mapping) :
    PortMapLocal Mapping → PortMapLocal Mapping
  | [] => [(key, value)]
  | (k, m) :: rest =>
    if key < k then (key, value) :: (k, m) :: rest
    else if key = k then (k, m) :: rest
    else (k, m) :: PortMapLocal.emplace key value rest

/-- The map has an entry with the given key. -/
def PortMapLocal.hasKey {Mapping : Type} (key : Fin 65536) (t : PortMapLocal Mapping) : Bool :=
  t.any (fun e => e.1 == key)

/-- The members of `Controller` that the mapping functions use: the shared
pointer `upnpContext_` (null, or the context with its state) and the two
tables. -/
structure Controller (Mapping Context : Type) where
  upnpContext_ : Option Context
  udpMappings_ : PortMapLocal Mapping
  tcpMappings_ : PortMapLocal Mapping

namespace Controller

variable {Mapping Context : Type}

/-- The expression `type == PortType::UDP ? udpMappings_ : tcpMappings_`, read. -/
def instanceMappings (c : Controller Mapping Context) (type : PortType) : PortMapLocal Mapping :=
  if type = PortType.UDP then c.udpMappings_ else c.tcpMappings_

/-- The expression `type == PortType::UDP ? udpMappings_ : tcpMappings_`, written
through the reference `instanceMappings`. -/
def setInstanceMappings (c : Controller Mapping Context) (type : PortType)
    (t : PortMapLocal Mapping) : Controller Mapping Context :=
  if type = PortType.UDP then { c with udpMappings_ := t } else { c with tcpMappings_ := t }

/-- Source: `Controller::addAnyMapping(port_desired, port_local, type, use_same_port,
unique, port_used)`. `HAVE_LIBUPNP` is the build flag; `port_used` is the
pointer argument, `none` when it is null and otherwise the `uint16_t` it points
to. The result is the returned `bool`, the controller afterwards and what
`port_used` points to afterwards. -/
def addAnyMapping (HAVE_LIBUPNP : Bool) (api : Api Mapping Context)
    (c : Controller Mapping Context) (port_desired port_local : Fin 65536) (type : PortType)
    (use_same_port unique : Bool) (port_used : Option (Fin 65536)) :
    Bool × Controller Mapping Context × Option (Fin 65536) :=
  if HAVE_LIBUPNP then
    match c.upnpContext_ with
    | none => (false, c, port_used)
    | some ctx =>
      let (mapping, ctx1) := api.addAnyMapping ctx port_desired port_local type use_same_port unique
      let c1 := { c with upnpContext_ := some ctx1 }
      if api.isValid mapping then
        let usedPort := api.getPortExternal mapping
        let port_used1 := port_used.map (fun _ => usedPort)
        let c2 := c1.setInstanceMappings type
          (PortMapLocal.emplace usedPort mapping (c1.instanceMappings type))
        (true, c2, port_used1)
      else (false, c1, port_used)
  else (false, c, port_used)

/-- Source: the overload `Controller::addAnyMapping(port_desired, type, unique,
port_used)`, which returns
`addAnyMapping(port_desired, port_desired, type, true, unique, port_used)`. -/
def addAnyMapping4 (HAVE_LIBUPNP : Bool) (api : Api Mapping Context)
    (c : Controller Mapping Context) (port_desired : Fin 65536) (type : PortType)
    (unique : Bool) (port_used : Option (Fin 65536)) :
    Bool × Controller Mapping Context × Option (Fin 65536) :=
  addAnyMapping HAVE_LIBUPNP api c port_desired port_desired type true unique port_used

/-- The loop of `removeMappings(PortType)`:
`for (auto iter = instanceMappings.begin(); iter != instanceMappings.end(); ) {
 auto& mapping = iter->second; upnpContext_->removeMapping(mapping);
 iter = instanceMappings.erase(iter); }`, from the state of the context and the
entries from `iter` on to the state of the context and the entries left. -/
def removeLoop (api : Api Mapping Context) :
    Context → PortMapLocal Mapping → Context × PortMapLocal Mapping
  | ctx, [] => (ctx, [])
  | ctx, (_, mapping) :: rest => removeLoop api (api.removeMapping ctx mapping) rest

/-- Source: `Controller::removeMappings(PortType type)`. -/
def removeMappings (HAVE_LIBUPNP : Bool) (api : Api Mapping Context)
    (c : Controller Mapping Context) (type : PortType) : Controller Mapping Context :=
  if HAVE_LIBUPNP then
    match c.upnpContext_ with
    | none => c
    | some ctx =>
      let (ctx1, left) := removeLoop api ctx (c.instanceMappings type)
      { c with upnpContext_ := some ctx1 }.setInstanceMappings type left
  else c

/-- Source: `Controller::removeMappings()`:
`removeMappings(PortType::UDP); removeMappings(PortType::TCP);`. -/
def removeMappingsAll (HAVE_LIBUPNP : Bool) (api : Api Mapping Context)
    (c : Controller Mapping Context) : Controller Mapping Context :=
  if HAVE_LIBUPNP then
    removeMappings HAVE_LIBUPNP api (removeMappings HAVE_LIBUPNP api c PortType.UDP) PortType.TCP
  else c

end Controller

/-- A context that records the calls made on it: its state is the list of the
mappings it was asked to add or remove, in call order; a mapping is its external
port, valid when the port is not zero, and the context grants the desired
port. -/
def logApi : Api (Fin 65536) (List (Fin 65536)) where
  isValid := fun m => m != 0
  getPortExternal := fun m => m
  addAnyMapping := fun log port_desired _ _ _ _ => (port_desired, log ++ [port_desired])
  removeMapping := fun log m => log ++ [m]

/-- A controller with a context, two UDP mappings and one TCP mapping. -/
def sampleController : Controller (Fin 65536) (List (Fin 65536)) :=
  { upnpContext_ := some [], udpMappings_ := [(5000, 5000), (5002, 5002)],
    tcpMappings_ := [(80, 80)] }

end ring.upnp

namespace dht

/-! ## Properties of the flags and mutators -/

/-- C1: after `setCypher`, `isSigned()`, `isEncrypted()` and
`flags.haveRecipient()` all return true, whatever the value (in particular
whatever its three prior flag bits) and whatever the ciphertext. -/
theorem Value.setCypher_sets_all_flags {K : Type} [Inhabited K] (v : Value K) (c : Blob) :
    (v.setCypher c).isSigned = true ∧ (v.setCypher c).isEncrypted = true
      ∧ (v.setCypher c).flags.haveRecipient = true := by
  refine ⟨?_, ?_, ?_⟩ <;> rfl

/-- C2: `a == b` holds exactly when the ids are equal and, if `a` is flagged
encrypted, the ciphertexts are equal, and, if `a` is not flagged encrypted,
owner (under the key type's own `==`), type, data and signature are equal; and
replacing `seq`, `recipient`, the signed bit and the has-recipient bit of both
operands by arbitrary other values never changes the result. -/
theorem Value.operator_eq_spec {K : Type} [Inhabited K] [BEq K] (a b : Value K) :
    (Value.operator_eq a b = true ↔
      a.id = b.id
      ∧ (a.flags.isEncrypted = true → a.cypher = b.cypher)
      ∧ (a.flags.isEncrypted = false →
          (a.owner == b.owner) = true ∧ a.type = b.type ∧ a.data = b.data
            ∧ a.signature = b.signature))
    ∧ ∀ (sa sb : Fin 65536) (ra rb : InfoHash) (sga sgb hra hrb : Bool),
        Value.operator_eq
          { a with seq := sa, recipient := ra, flags := { a.flags with b0 := sga, b2 := hra } }
          { b with seq := sb, recipient := rb, flags := { b.flags with b0 := sgb, b2 := hrb } }
        = Value.operator_eq a b := by
  refine ⟨?_, fun _ _ _ _ _ _ _ _ => rfl⟩
  unfold Value.operator_eq
  cases h : a.flags.isEncrypted <;> simp [and_assoc]

/-- C3: values with different ids are never equal under `operator==`, also when
both are flagged encrypted and carry the same ciphertext. -/
theorem Value.operator_eq_false_of_id_ne {K : Type} [Inhabited K] [BEq K] (a b : Value K)
    (h : a.id ≠ b.id) : Value.operator_eq a b = false := by
  unfold Value.operator_eq
  simp [h]

/-- C3 at two sealed values with the same ciphertext and ids 7 and 8. -/
theorem Value.operator_eq_false_of_id_ne_witness :
    sealedA.isEncrypted = true ∧ sealedB.isEncrypted = true
      ∧ sealedA.cypher = sealedB.cypher ∧ Value.operator_eq sealedA sealedB = false :=
  ⟨by decide, by decide, by decide,
    Value.operator_eq_false_of_id_ne sealedA sealedB (by decide)⟩

/-- C4: after `setRecipient(r)` the recipient is `r`, the has-recipient bit is
true, the signed and encrypted bits keep their prior values and `id`, `owner`,
`type`, `data`, `seq`, `signature` and `cypher` are unchanged. -/
theorem Value.setRecipient_frame {K : Type} [Inhabited K] (v : Value K) (r : InfoHash) :
    (v.setRecipient r).recipient = r
      ∧ (v.setRecipient r).flags.haveRecipient = true
      ∧ (v.setRecipient r).flags.isSigned = v.flags.isSigned
      ∧ (v.setRecipient r).flags.isEncrypted = v.flags.isEncrypted
      ∧ (v.setRecipient r).id = v.id
      ∧ (v.setRecipient r).owner = v.owner
      ∧ (v.setRecipient r).type = v.type
      ∧ (v.setRecipient r).data = v.data
      ∧ (v.setRecipient r).seq = v.seq
      ∧ (v.setRecipient r).signature = v.signature
      ∧ (v.setRecipient r).cypher = v.cypher := by
  refine ⟨?_, ?_, ?_, ?_, ?_, ?_, ?_, ?_, ?_, ?_, ?_⟩ <;> rfl

theorem Value.Ctor.build_sealedOk {K : Type} [Inhabited K] (c : Value.Ctor K) :
    c.build.flags.SealedOk := by
  intro h
  cases c <;> exact absurd h Bool.false_ne_true

theorem Value.Step.apply_sealedOk {K : Type} [Inhabited K] (v : Value K) (st : Value.Step)
    (hv : v.flags.SealedOk) : (Value.Step.apply v st).flags.SealedOk := by
  cases st with
  | setRecipient r =>
    intro h
    have h1 : v.flags.isEncrypted = true := h
    exact ⟨(hv h1).1, rfl⟩
  | setCypher c => exact fun _ => ⟨rfl, rfl⟩
  | move => exact hv

theorem Value.runSteps_sealedOk {K : Type} [Inhabited K] (steps : List Value.Step) :
    ∀ v : Value K, v.flags.SealedOk → (Value.runSteps v steps).flags.SealedOk := by
  induction steps with
  | nil => exact fun _ hv => hv
  | cons st rest ih =>
    intro v hv
    exact ih (Value.Step.apply v st) (Value.Step.apply_sealedOk v st hv)

/-- C5: a value built by any constructor and then taken through any finite
sequence of `setRecipient`, `setCypher` and move-construction steps is, when
`isEncrypted()` holds, also flagged signed and has-recipient. -/
theorem Value.encrypted_implies_signed_and_recipient {K : Type} [Inhabited K]
    (c : Value.Ctor K) (steps : List Value.Step)
    (h : (Value.runSteps c.build steps).isEncrypted = true) :
    (Value.runSteps c.build steps).isSigned = true
      ∧ (Value.runSteps c.build steps).flags.haveRecipient = true :=
  Value.runSteps_sealedOk steps _ (Value.Ctor.build_sealedOk c) h

/-- C5 at `Value(42)` followed by `setRecipient`, `setCypher` and a move. -/
theorem Value.encrypted_implies_signed_and_recipient_witness :
    (Value.runSteps (Value.Ctor.build (.ofId 42 : Value.Ctor Nat))
        [.setRecipient (sampleHash 9), .setCypher [1, 2], .move]).isEncrypted = true
      ∧ (Value.runSteps (Value.Ctor.build (.ofId 42 : Value.Ctor Nat))
          [.setRecipient (sampleHash 9), .setCypher [1, 2], .move]).isSigned = true
      ∧ (Value.runSteps (Value.Ctor.build (.ofId 42 : Value.Ctor Nat))
          [.setRecipient (sampleHash 9), .setCypher [1, 2], .move]).flags.haveRecipient = true :=
  ⟨by decide,
    Value.encrypted_implies_signed_and_recipient (.ofId 42 : Value.Ctor Nat)
      [.setRecipient (sampleHash 9), .setCypher [1, 2], .move] (by decide)⟩

/-! ## The round trip through the wire format -/

theorem encodeBE_length (w n : Nat) : (encodeBE w n).length = w := by
  induction w with
  | zero => rfl
  | succ w ih => simp [encodeBE, ih]

theorem foldl_encodeBE (w n acc : Nat) :
    (encodeBE w n).foldl (fun a (b : Byte) => a * 256 + b.val) acc
      = acc * 256 ^ w + n % 256 ^ w := by
  induction w generalizing acc with
  | zero => simp [encodeBE, Nat.mod_one]
  | succ w ih =>
    have hb : (Fin.ofNat (n / 256 ^ w) : Byte).val = n / 256 ^ w % 256 := rfl
    simp only [encodeBE, List.foldl_cons, ih, hb]
    rw [Nat.mod_pow_succ (x := n) (b := 256) (k := w)]
    ring

theorem decodeBE_encodeBE (w n : Nat) : decodeBE (encodeBE w n) = n % 256 ^ w := by
  unfold decodeBE
  rw [foldl_encodeBE]
  simp

theorem getUInt_putUInt (ord : ByteOrder) (w n : Nat) (rest : Blob) :
    getUInt ord w (putUInt ord w n ++ rest) = some (n % 256 ^ w, rest) := by
  have hlen : (putUInt ord w n).length = w := by
    cases ord <;> simp [putUInt, encodeBE_length]
  unfold getUInt
  rw [if_neg (by simp [hlen]), List.take_left' hlen, List.drop_left' hlen]
  cases ord <;> simp [putUInt, decodeBE_encodeBE]

theorem getHash_append (r : InfoHash) (rest : Blob) :
    getHash (r.val ++ rest) = some (r, rest) := by
  obtain ⟨l, hl⟩ := r
  unfold getHash
  have ht : List.take 20 (l ++ rest) = l := List.take_left' hl
  have hd : List.drop 20 (l ++ rest) = rest := List.drop_left' hl
  simp [ht, hd, hl]

theorem ValueFlags.ofULong_toULong (f : ValueFlags) :
    ValueFlags.ofULong (f.toULong % 256) = f := by
  obtain ⟨b0, b1, b2⟩ := f
  cases b0 <;> cases b1 <;> cases b2 <;> decide

theorem u16_ofNat_val_mod (x : Fin 65536) : (Fin.ofNat (x.val % 65536) : Fin 65536) = x := by
  apply Fin.ext
  show x.val % 65536 % 65536 = x.val
  omega

theorem u64_ofNat_val_mod (x : Value.Id) :
    (Fin.ofNat (x.val % 18446744073709551616) : Value.Id) = x := by
  apply Fin.ext
  show x.val % 18446744073709551616 % 18446744073709551616 = x.val
  omega

theorem Value.unpackBody_plain {K : Type} [Inhabited K] (S : Serializer K) (v : Value K)
    (hk : S.key.RoundTrips v.owner) (hd : S.blob.RoundTrips v.data)
    (hs : v.flags.isSigned = true → S.blob.RoundTrips v.signature)
    (henc : v.flags.isEncrypted = false) (rest : Blob) :
    Value.unpackBody S (putUInt S.order 1 v.flags.toULong ++
        (S.key.put v.owner
          ++ ((if v.flags.haveRecipient then v.recipient.val else [])
          ++ (putUInt S.order 2 v.type.val
          ++ (putUInt S.order 2 v.seq.val
          ++ (S.blob.put v.data
          ++ ((if v.flags.isSigned then S.blob.put v.signature else []) ++ rest)))))))
      = some ({ flags := v.flags, owner := v.owner,
                recipient := if v.flags.haveRecipient then v.recipient else InfoHash.zero,
                type := v.type, data := v.data, seq := v.seq,
                signature := if v.flags.isSigned then v.signature else [] }, rest) := by
  have hk1 : ∀ r : Blob, S.key.get (S.key.put v.owner ++ r) = some (v.owner, r) := hk
  have hd1 : ∀ r : Blob, S.blob.get (S.blob.put v.data ++ r) = some (v.data, r) := hd
  unfold Value.unpackBody
  simp only [getUInt_putUInt, Option.bind_eq_bind, Option.some_bind, Nat.pow_one,
    ValueFlags.ofULong_toULong, henc, Bool.false_eq_true, if_false, hk1]
  cases hsg : v.flags.isSigned
  · cases hr : v.flags.haveRecipient <;>
      simp only [Bool.false_eq_true, if_false, if_true, Option.pure_def, Option.some_bind,
        List.nil_append, getHash_append, getUInt_putUInt, hd1, Nat.reducePow,
        u16_ofNat_val_mod]
  · have hs1 : ∀ r : Blob, S.blob.get (S.blob.put v.signature ++ r) = some (v.signature, r) :=
      hs hsg
    cases hr : v.flags.haveRecipient <;>
      simp only [Bool.false_eq_true, if_false, if_true, Option.pure_def, Option.some_bind,
        List.nil_append, getHash_append, getUInt_putUInt, hd1, hs1, Nat.reducePow,
        u16_ofNat_val_mod]

theorem Value.unpackBody_sealed {K : Type} [Inhabited K] (S : Serializer K) (v : Value K)
    (hc : S.blob.RoundTrips v.cypher) (henc : v.flags.isEncrypted = true) (rest : Blob) :
    Value.unpackBody S (putUInt S.order 1 v.flags.toULong ++ (S.blob.put v.cypher ++ rest))
      = some ({ flags := v.flags, cypher := v.cypher }, rest) := by
  have hc1 : ∀ r : Blob, S.blob.get (S.blob.put v.cypher ++ r) = some (v.cypher, r) := hc
  unfold Value.unpackBody
  simp only [getUInt_putUInt, Option.bind_eq_bind, Option.some_bind, Nat.pow_one,
    ValueFlags.ofULong_toULong, henc, if_true, hc1, Option.pure_def]

theorem Value.Ctor.build_signature {K : Type} [Inhabited K] (c : Value.Ctor K) :
    c.build.signature = [] := by
  cases c <;> rfl

theorem Value.runSteps_signature {K : Type} [Inhabited K] (steps : List Value.Step) :
    ∀ v : Value K, (Value.runSteps v steps).signature = v.signature := by
  induction steps with
  | nil => exact fun _ => rfl
  | cons st rest ih =>
    intro v
    have h1 : (Value.Step.apply v st).signature = v.signature := by cases st <;> rfl
    exact (ih (Value.Step.apply v st)).trans h1

theorem sampleSerializer_faithful : sampleSerializer.Faithful sampleSigned := by
  have h2 : (Fin.ofNat 2 : Byte).val = 2 := rfl
  have h3 : (Fin.ofNat 3 : Byte).val = 3 := rfl
  unfold Serializer.Faithful
  rw [if_neg (by decide)]
  refine ⟨?_, ?_, fun _ => ?_⟩ <;> intro rest
  · rfl
  · simp [sampleSerializer, sampleSigned, h2]
  · simp [sampleSerializer, sampleSigned, h3]

/-- C6: for every value `v` in any of the eight flag combinations, unpacking
`pack(v)` succeeds and yields a value `w` with `w == v` (and `v == w`), given
what the claim takes for granted of a constructible value and of the external
primitives: the serialization primitive round-trips the variable-length fields
of `v` that go on the wire, the key type's `==` holds between the owner and
itself, and a value that is neither signed nor encrypted carries no signature
(the data model's "present iff signed"). -/
theorem Value.unpack_pack {K : Type} [Inhabited K] [BEq K] (S : Serializer K) (v : Value K)
    (hS : S.Faithful v)
    (hrefl : v.flags.isEncrypted = false → (v.owner == v.owner) = true)
    (hsig : v.flags.isEncrypted = false → v.flags.isSigned = false → v.signature = []) :
    ∃ w, Value.unpack S (Value.pack S v) = some w
      ∧ Value.operator_eq w v = true ∧ Value.operator_eq v w = true := by
  unfold Serializer.Faithful at hS
  cases henc : v.flags.isEncrypted
  · rw [if_neg (by simp [henc])] at hS
    obtain ⟨hk, hd, hs⟩ := hS
    have hbody := Value.unpackBody_plain S v hk hd hs henc []
    simp only [List.append_nil] at hbody
    have hsig1 : (if v.flags.isSigned = true then v.signature else []) = v.signature := by
      cases hsg : v.flags.isSigned
      · simp [hsig henc hsg]
      · simp
    refine ⟨{ id := v.id, flags := v.flags, owner := v.owner,
              recipient := if v.flags.haveRecipient then v.recipient else InfoHash.zero,
              type := v.type, data := v.data, seq := v.seq, signature := v.signature }, ?_, ?_, ?_⟩
    · unfold Value.unpack Value.pack
      simp only [henc, Bool.false_eq_true, if_false, List.append_assoc, getUInt_putUInt,
        Option.bind_eq_bind, Option.some_bind, hbody, if_true, Option.pure_def, Nat.reducePow,
        u64_ofNat_val_mod, hsig1]
    · simp [Value.operator_eq, henc, hrefl henc]
    · simp [Value.operator_eq, henc, hrefl henc]
  · rw [if_pos henc] at hS
    have hbody := Value.unpackBody_sealed S v hS henc []
    simp only [List.append_nil] at hbody
    refine ⟨{ id := v.id, flags := v.flags, cypher := v.cypher }, ?_, ?_, ?_⟩
    · unfold Value.unpack Value.pack
      simp only [henc, if_true, List.append_assoc, getUInt_putUInt,
        Option.bind_eq_bind, Option.some_bind, hbody, Option.pure_def, Nat.reducePow,
        u64_ofNat_val_mod]
    · simp [Value.operator_eq, henc]
    · simp [Value.operator_eq, henc]

/-- C6 at a signed value addressed to a recipient, with the sample
serialization primitive. -/
theorem Value.unpack_pack_witness :
    sampleSerializer.Faithful sampleSigned
      ∧ (sampleSigned.owner == sampleSigned.owner) = true
      ∧ ∃ w, Value.unpack sampleSerializer (Value.pack sampleSerializer sampleSigned) = some w
          ∧ Value.operator_eq w sampleSigned = true ∧ Value.operator_eq sampleSigned w = true :=
  ⟨sampleSerializer_faithful, by decide,
    Value.unpack_pack sampleSerializer sampleSigned sampleSerializer_faithful
      (fun _ => by decide) (fun _ h => absurd h (by decide))⟩

/-! ## Properties of `ValueType` and the filters -/

/-- C7: a `ValueType` built by the default constructor or by the
`(id, name[, expiration])` constructor has a `storePolicy` that returns true on
every argument tuple and an `editPolicy` that returns false on every argument
tuple. -/
theorem ValueType.default_policy_asymmetry {K : Type} [Inhabited K]
    (id : ValueType.Id) (name : String) (e : Int)
    (key src : InfoHash) (old val : Option (Value K)) (sa : Option Blob) (salen : Nat) :
    ((ValueType.ctorDefault : ValueType K).storePolicy key val src sa salen = true
      ∧ (ValueType.ctorDefault : ValueType K).editPolicy key old val src sa salen = false)
    ∧ ((ValueType.ctorNamed id name : ValueType K).storePolicy key val src sa salen = true
      ∧ (ValueType.ctorNamed id name : ValueType K).editPolicy key old val src sa salen = false)
    ∧ ((ValueType.ctorNamed id name e : ValueType K).storePolicy key val src sa salen = true
      ∧ (ValueType.ctorNamed id name e : ValueType K).editPolicy key old val src sa salen
          = false) :=
  ⟨⟨rfl, rfl⟩, ⟨rfl, rfl⟩, ⟨rfl, rfl⟩⟩

/-- C8: `chainFilters(TypeFilter(A), TypeFilter(B))` accepts `v` iff `v.type`
equals both `A.id` and `B.id`; it is the filter that rejects everything (and
leaves the state alone) when `A.id != B.id`, and it is `TypeFilter(A)` when
`A.id == B.id`. -/
theorem Value.chainFilters_TypeFilter {K : Type} [Inhabited K] {σ : Type}
    (A B : ValueType K) (v : Value K) (s : σ) :
    ((Value.chainFilters (Value.TypeFilter A) (Value.TypeFilter B) v s).1 = true
        ↔ v.type = A.id ∧ v.type = B.id)
    ∧ Value.chainFilters (Value.TypeFilter A) (Value.TypeFilter B) v s
        = (if A.id = B.id then Value.TypeFilter A v s else (false, s)) := by
  unfold Value.chainFilters Value.TypeFilter
  by_cases hAB : A.id = B.id
  · cases hA : (v.type == A.id) <;> simp_all
  · cases hA : (v.type == A.id) <;> cases hB : (v.type == B.id) <;> simp_all

/-- C9: the verdict of `chainFilters(f1, f2)` on `v` is the logical AND of the
verdict of `f1` and the verdict of `f2`; `f1` is called first, `f2` is called in
the state `f1` leaves, and when `f1` rejects `v` the call to `f2` does not
happen: the result is false and the state is the one `f1` left. -/
theorem Value.chainFilters_spec {K : Type} [Inhabited K] {σ : Type}
    (f1 f2 : Filter K σ) (v : Value K) (s : σ) :
    (Value.chainFilters f1 f2 v s).1 = ((f1 v s).1 && (f2 v (f1 v s).2).1)
    ∧ Value.chainFilters f1 f2 v s
        = (if (f1 v s).1 = true then f2 v (f1 v s).2 else (false, (f1 v s).2)) := by
  unfold Value.chainFilters
  rcases h : f1 v s with ⟨b, s1⟩
  cases b <;> simp

/-- C10: `TypeFilter(t)` accepts `v` iff `v.type == t.id` and has no effect on
the state; it depends on `t` through `t.id` only: a `ValueType` with any other
name, expiration and policies but the id of `t` yields the same filter. -/
theorem Value.TypeFilter_spec {K : Type} [Inhabited K] {σ : Type}
    (t other : ValueType K) (v : Value K) (s : σ) :
    ((Value.TypeFilter t v s).1 = true ↔ v.type = t.id)
    ∧ (Value.TypeFilter t v s).2 = s
    ∧ Value.TypeFilter { other with id := t.id } v s = Value.TypeFilter t v s := by
  unfold Value.TypeFilter
  simp

/-- C11: `AllFilter()` accepts every value (and leaves the state alone), and
chaining it before or after any filter `f` gives a filter that behaves as `f`
on every value. -/
theorem Value.AllFilter_neutral {K : Type} [Inhabited K] {σ : Type}
    (f : Filter K σ) (v : Value K) (s : σ) :
    (Value.AllFilter v s : Bool × σ) = (true, s)
    ∧ Value.chainFilters Value.AllFilter f v s = f v s
    ∧ Value.chainFilters f Value.AllFilter v s = f v s := by
  refine ⟨rfl, rfl, ?_⟩
  unfold Value.chainFilters Value.AllFilter
  rcases h : f v s with ⟨b, s1⟩
  cases b <;> rfl

/-- C12: the three flag bits read back what the constructor was given:
`ValueFlags(s, e, r)` has `isSigned() = s`, `isEncrypted() = e` and
`haveRecipient() = r`; `ValueFlags(s, e)` has `isSigned() = s`,
`isEncrypted() = e` and `haveRecipient() = false`; a default-constructed
`ValueFlags` has all three false. -/
theorem ValueFlags.make_reads_back (s e r : Bool) :
    ((ValueFlags.make s e r).isSigned = s ∧ (ValueFlags.make s e r).isEncrypted = e
      ∧ (ValueFlags.make s e r).haveRecipient = r)
    ∧ ((ValueFlags.make s e).isSigned = s ∧ (ValueFlags.make s e).isEncrypted = e
      ∧ (ValueFlags.make s e).haveRecipient = false)
    ∧ (({} : ValueFlags).isSigned = false ∧ ({} : ValueFlags).isEncrypted = false
      ∧ ({} : ValueFlags).haveRecipient = false) := by
  cases s <;> cases e <;> cases r <;> decide

/-- C15: after `setCypher(c)` the field `cypher` is `c` and `id`, `owner`,
`recipient`, `type`, `data`, `seq` and `signature` are unchanged. -/
theorem Value.setCypher_frame {K : Type} [Inhabited K] (v : Value K) (c : Blob) :
    (v.setCypher c).cypher = c
      ∧ (v.setCypher c).id = v.id
      ∧ (v.setCypher c).owner = v.owner
      ∧ (v.setCypher c).recipient = v.recipient
      ∧ (v.setCypher c).type = v.type
      ∧ (v.setCypher c).data = v.data
      ∧ (v.setCypher c).seq = v.seq
      ∧ (v.setCypher c).signature = v.signature := by
  refine ⟨?_, ?_, ?_, ?_, ?_, ?_, ?_, ?_⟩ <;> rfl

/-- C16: `ValueType::operator==` holds exactly when the ids are equal, and
replacing the name, the expiration and the two policies of both operands by
arbitrary others never changes its result. -/
theorem ValueType.operator_eq_by_id {K : Type} [Inhabited K] (a b : ValueType K) :
    (ValueType.operator_eq a b = true ↔ a.id = b.id)
    ∧ ∀ (na nb : String) (ea eb : Int) (spa spb : StorePolicy K) (epa epb : EditPolicy K),
        ValueType.operator_eq
          { a with name := na, expiration := ea, storePolicy := spa, editPolicy := epa }
          { b with name := nb, expiration := eb, storePolicy := spb, editPolicy := epb }
        = ValueType.operator_eq a b := by
  refine ⟨?_, fun _ _ _ _ _ _ _ _ => rfl⟩
  unfold ValueType.operator_eq
  simp

/-! ## Properties of `ServiceAnnouncement` -/

theorem byte_ofNat_val (n : Nat) : (Fin.ofNat n : Byte).val = n % 256 := rfl

theorem u16_ofNat_val (n : Nat) : (Fin.ofNat n : Fin 65536).val = n % 65536 := rfl

theorem loadU16_storeU16 (host : ByteOrder) (x : Fin 65536) :
    loadU16 host (storeU16 host x).1 (storeU16 host x).2 = x := by
  have hx := x.isLt
  cases host <;> apply Fin.ext <;>
    simp only [loadU16, storeU16, byte_ofNat_val, u16_ofNat_val] <;> omega

theorem swap16_facts (x : Nat) (hx : x < 65536) :
    (x % 256 * 256 + x / 256) % 65536 = x % 256 * 256 + x / 256
      ∧ (x % 256 * 256 + x / 256) % 256 = x / 256
      ∧ (x % 256 * 256 + x / 256) / 256 = x % 256 := by
  have hq : x / 256 < 256 := by omega
  have hr : x % 256 < 256 := Nat.mod_lt x (by decide)
  refine ⟨?_, ?_, ?_⟩
  · exact Nat.mod_eq_of_lt (by omega)
  · omega
  · omega

theorem ntohs_htons (host : ByteOrder) (x : Fin 65536) : ntohs host (htons host x) = x := by
  cases host
  · rfl
  · obtain ⟨h1, h2, h3⟩ := swap16_facts x.val x.isLt
    have hx := x.isLt
    apply Fin.ext
    simp only [ntohs, htons, u16_ofNat_val, h1, h2, h3]
    omega

theorem storeU16_htons (host : ByteOrder) (p : Fin 65536) :
    ((storeU16 host (htons host p)).1.val = p.val / 256)
      ∧ ((storeU16 host (htons host p)).2.val = p.val % 256) := by
  obtain ⟨h1, h2, h3⟩ := swap16_facts p.val p.isLt
  have hp := p.isLt
  cases host <;> refine ⟨?_, ?_⟩ <;>
    simp only [storeU16, htons, byte_ofNat_val, u16_ofNat_val, h1, h2, h3] <;> omega

theorem sockaddr_storage.write2_fst (ss : sockaddr_storage) (i j : Fin 128) (bs : Byte × Byte) :
    ss.write2 i j bs i = bs.1 := by
  simp [sockaddr_storage.write2]

theorem sockaddr_storage.write2_snd (ss : sockaddr_storage) (i j : Fin 128) (bs : Byte × Byte)
    (hij : j ≠ i) : ss.write2 i j bs j = bs.2 := by
  simp [sockaddr_storage.write2, hij]

theorem sockaddr_storage.write2_other (ss : sockaddr_storage) (i j k : Fin 128)
    (bs : Byte × Byte) (hi : k ≠ i) (hj : k ≠ j) : ss.write2 i j bs k = ss k := by
  simp [sockaddr_storage.write2, hi, hj]

theorem sockaddr_storage.sin_port_set_sin_port (host : ByteOrder) (ss : sockaddr_storage)
    (x : Fin 65536) : (ss.set_sin_port host x).sin_port host = x := by
  unfold sockaddr_storage.sin_port sockaddr_storage.set_sin_port
  rw [sockaddr_storage.write2_fst, sockaddr_storage.write2_snd _ _ _ _ (by decide)]
  exact loadU16_storeU16 host x

theorem sockaddr_storage.ss_family_set_sin_port (host : ByteOrder) (ss : sockaddr_storage)
    (x : Fin 65536) : (ss.set_sin_port host x).ss_family host = ss.ss_family host := by
  unfold sockaddr_storage.ss_family sockaddr_storage.set_sin_port
  rw [sockaddr_storage.write2_other _ _ _ _ _ (by decide) (by decide),
    sockaddr_storage.write2_other _ _ _ _ _ (by decide) (by decide)]

theorem sockaddr_storage.ss_family_set_ss_family (host : ByteOrder) (ss : sockaddr_storage)
    (x : Fin 65536) : (ss.set_ss_family host x).ss_family host = x := by
  unfold sockaddr_storage.ss_family sockaddr_storage.set_ss_family
  rw [sockaddr_storage.write2_fst, sockaddr_storage.write2_snd _ _ _ _ (by decide)]
  exact loadU16_storeU16 host x

/-- C13: on a host of either byte order and for every 16-bit port `p`,
`getPort()` returns `p` after `setPort(p)` and `setPort` leaves the address
family as it was; `ServiceAnnouncement(p)` has `getPort() = p` and family 0,
whatever its storage held before (the port 51413 is one instance). -/
theorem ServiceAnnouncement.port_round_trip (host : ByteOrder) (a : ServiceAnnouncement)
    (prior : sockaddr_storage) (p : in_port_t) :
    (a.setPort host p).getPort host = p
    ∧ (a.setPort host p).ss.ss_family host = a.ss.ss_family host
    ∧ (ServiceAnnouncement.ctorPort host prior p).getPort host = p
    ∧ (ServiceAnnouncement.ctorPort host prior p).ss.ss_family host = 0 := by
  refine ⟨?_, ?_, ?_, ?_⟩
  · simp only [ServiceAnnouncement.getPort, ServiceAnnouncement.setPort,
      sockaddr_storage.sin_port_set_sin_port, ntohs_htons]
  · simp only [ServiceAnnouncement.setPort, sockaddr_storage.ss_family_set_sin_port]
  · simp only [ServiceAnnouncement.ctorPort, ServiceAnnouncement.getPort,
      ServiceAnnouncement.setPort, sockaddr_storage.sin_port_set_sin_port, ntohs_htons]
  · simp only [ServiceAnnouncement.ctorPort, ServiceAnnouncement.setPort,
      sockaddr_storage.ss_family_set_sin_port, sockaddr_storage.ss_family_set_ss_family]

/-- C14, as stated, fails: built over storage filled with `0xff` on a
little-endian host, `ServiceAnnouncement(51413)` does not have every byte outside
the port field (offsets 2 and 3) equal to zero; the byte at offset 4, the first
byte of `sin_addr`, is still `0xff`. -/
theorem ServiceAnnouncement.ctorPort_not_zeroed :
    ¬ (∀ k : Fin 128, k ≠ 2 → k ≠ 3 →
        (ServiceAnnouncement.ctorPort .little sampleStorage 51413).ss k = 0)
    ∧ (ServiceAnnouncement.ctorPort .little sampleStorage 51413).ss 4 = 255 := by
  have h4 : (ServiceAnnouncement.ctorPort .little sampleStorage 51413).ss 4 = 255 := by decide
  refine ⟨fun h => ?_, h4⟩
  have h0 := h 4 (by decide) (by decide)
  rw [h4] at h0
  exact absurd h0 (by decide)

/-- C14, amended: a `ServiceAnnouncement` constructed from a port number `p` has
address family 0 and port `p`, whatever its storage held before; nothing is
stated of the other bytes of the stored structure. -/
theorem ServiceAnnouncement.ctorPort_fields (host : ByteOrder) (prior : sockaddr_storage)
    (p : in_port_t) :
    (ServiceAnnouncement.ctorPort host prior p).ss.ss_family host = 0
    ∧ (ServiceAnnouncement.ctorPort host prior p).getPort host = p := by
  refine ⟨?_, ?_⟩
  · simp only [ServiceAnnouncement.ctorPort, ServiceAnnouncement.setPort,
      sockaddr_storage.ss_family_set_sin_port, sockaddr_storage.ss_family_set_ss_family]
  · simp only [ServiceAnnouncement.ctorPort, ServiceAnnouncement.getPort,
      ServiceAnnouncement.setPort, sockaddr_storage.sin_port_set_sin_port, ntohs_htons]

/-- C17: on a host of either byte order and for every 16-bit port `p`, after
`setPort(p)` the two bytes of the port field are, in memory order, `p / 256`
followed by `p % 256` (network byte order). -/
theorem ServiceAnnouncement.setPort_network_order (host : ByteOrder) (a : ServiceAnnouncement)
    (p : in_port_t) :
    ((a.setPort host p).ss 2).val = p.val / 256
    ∧ ((a.setPort host p).ss 3).val = p.val % 256 := by
  simp only [ServiceAnnouncement.setPort, sockaddr_storage.set_sin_port]
  rw [sockaddr_storage.write2_fst, sockaddr_storage.write2_snd _ _ _ _ (by decide)]
  exact storeU16_htons host p

/-! ## Symmetry of `Value::operator==` -/

/-- C18, as stated, fails: with `v = Value({9})` and `w` the same value after
`setCypher({1, 2, 3})`, `v == w` is true (the plain `v` compares owner, type,
data and signature, which `setCypher` left in place) and `w == v` is false (the
sealed `w` compares the ciphertexts). -/
theorem Value.operator_eq_not_symmetric :
    Value.operator_eq plainV sealedV = true ∧ Value.operator_eq sealedV plainV = false := by
  decide

/-- C18, amended: `a == b` and `b == a` give the same result when `a` and `b`
agree on the encrypted flag and, if they are not encrypted, the key type's `==`
gives the same result on their owners in either order. -/
theorem Value.operator_eq_symm {K : Type} [Inhabited K] [BEq K] (a b : Value K)
    (hflag : a.flags.isEncrypted = b.flags.isEncrypted)
    (hown : a.flags.isEncrypted = false → (a.owner == b.owner) = (b.owner == a.owner)) :
    Value.operator_eq a b = Value.operator_eq b a := by
  unfold Value.operator_eq
  rw [← hflag, BEq.comm (a := a.id), BEq.comm (a := a.cypher)]
  cases henc : a.flags.isEncrypted
  · rw [hown henc, BEq.comm (a := a.type), BEq.comm (a := a.data), BEq.comm (a := a.signature)]
  · rfl

/-- C18, amended, at two values that are not encrypted. -/
theorem Value.operator_eq_symm_witness :
    plainV.flags.isEncrypted = sampleSigned.flags.isEncrypted
      ∧ (plainV.owner == sampleSigned.owner) = (sampleSigned.owner == plainV.owner)
      ∧ Value.operator_eq plainV sampleSigned = Value.operator_eq sampleSigned plainV :=
  ⟨by decide, by decide,
    Value.operator_eq_symm plainV sampleSigned (by decide) (fun _ => by decide)⟩

end dht

namespace ring.upnp

/-! ## Properties of the UPnP controller -/

theorem PortMapLocal.hasKey_emplace {Mapping : Type} (key : Fin 65536) (value : Mapping)
    (t : PortMapLocal Mapping) :
    PortMapLocal.hasKey key (PortMapLocal.emplace key value t) = true := by
  induction t with
  | nil => simp [PortMapLocal.emplace, PortMapLocal.hasKey]
  | cons e rest ih =>
    obtain ⟨k, m⟩ := e
    unfold PortMapLocal.emplace
    by_cases h1 : key < k
    · simp [h1, PortMapLocal.hasKey]
    · by_cases h2 : key = k
      · simp [h2, PortMapLocal.hasKey]
      · simp only [h1, h2, if_false]
        simp only [PortMapLocal.hasKey, List.any_cons] at ih ⊢
        rw [ih]
        simp

theorem Controller.instanceMappings_setInstanceMappings {Mapping Context : Type}
    (c : Controller Mapping Context) (type : PortType) (t : PortMapLocal Mapping) :
    (c.setInstanceMappings type t).instanceMappings type = t := by
  cases type <;> rfl

theorem Controller.instanceMappings_setInstanceMappings_ne {Mapping Context : Type}
    (c : Controller Mapping Context) (type other : PortType) (t : PortMapLocal Mapping)
    (h : other ≠ type) :
    (c.setInstanceMappings type t).instanceMappings other = c.instanceMappings other := by
  cases type <;> cases other <;> first | rfl | exact absurd rfl h

theorem Controller.removeLoop_eq {Mapping Context : Type} (api : Api Mapping Context)
    (t : PortMapLocal Mapping) :
    ∀ ctx : Context,
      Controller.removeLoop api ctx t = (t.foldl (fun x e => api.removeMapping x e.2) ctx, []) := by
  induction t with
  | nil => exact fun _ => rfl
  | cons e rest ih =>
    intro ctx
    obtain ⟨k, m⟩ := e
    exact ih (api.removeMapping ctx m)

/-- C19: in a build with libupnp, `addAnyMapping` returns true iff a context is
present and the mapping the context returns is valid. When it returns true, the
external port of that mapping is what `port_used` points to afterwards if the
pointer is not null, the table of the requested type has an entry keyed by that
port, and the table of the other type is unchanged. When it returns false, both
tables and what `port_used` points to are unchanged. The four-argument overload
is the call with `port_local = port_desired` and `use_same_port = true`. -/
theorem Controller.addAnyMapping_spec {Mapping Context : Type} (api : Api Mapping Context)
    (c : Controller Mapping Context) (port_desired port_local : Fin 65536) (type : PortType)
    (use_same_port unique : Bool) (port_used : Option (Fin 65536)) :
    ((Controller.addAnyMapping true api c port_desired port_local type use_same_port unique
          port_used).1 = true
      ↔ ∃ ctx, c.upnpContext_ = some ctx
          ∧ api.isValid
              (api.addAnyMapping ctx port_desired port_local type use_same_port unique).1 = true)
    ∧ ((Controller.addAnyMapping true api c port_desired port_local type use_same_port unique
          port_used).1 = true →
        ∃ ctx, c.upnpContext_ = some ctx
          ∧ (Controller.addAnyMapping true api c port_desired port_local type use_same_port
                unique port_used).2.2
              = port_used.map (fun _ => api.getPortExternal
                  (api.addAnyMapping ctx port_desired port_local type use_same_port unique).1)
          ∧ PortMapLocal.hasKey
              (api.getPortExternal
                (api.addAnyMapping ctx port_desired port_local type use_same_port unique).1)
              ((Controller.addAnyMapping true api c port_desired port_local type use_same_port
                unique port_used).2.1.instanceMappings type) = true
          ∧ ∀ other : PortType, other ≠ type →
              (Controller.addAnyMapping true api c port_desired port_local type use_same_port
                unique port_used).2.1.instanceMappings other = c.instanceMappings other)
    ∧ ((Controller.addAnyMapping true api c port_desired port_local type use_same_port unique
          port_used).1 = false →
        (Controller.addAnyMapping true api c port_desired port_local type use_same_port unique
            port_used).2.1.udpMappings_ = c.udpMappings_
          ∧ (Controller.addAnyMapping true api c port_desired port_local type use_same_port
              unique port_used).2.1.tcpMappings_ = c.tcpMappings_
          ∧ (Controller.addAnyMapping true api c port_desired port_local type use_same_port
              unique port_used).2.2 = port_used)
    ∧ Controller.addAnyMapping4 true api c port_desired type unique port_used
        = Controller.addAnyMapping true api c port_desired port_desired type true unique
            port_used := by
  refine ⟨?_, ?_, ?_, rfl⟩
  · unfold Controller.addAnyMapping
    cases hc : c.upnpContext_ with
    | none => simp
    | some ctx =>
      cases hv : api.isValid
        (api.addAnyMapping ctx port_desired port_local type use_same_port unique).1 <;>
        simp [hv]
  · unfold Controller.addAnyMapping
    cases hc : c.upnpContext_ with
    | none => simp
    | some ctx =>
      cases hv : api.isValid
        (api.addAnyMapping ctx port_desired port_local type use_same_port unique).1
      · simp [hv]
      · intro _
        refine ⟨ctx, rfl, ?_, ?_, ?_⟩
        · simp [hv]
        · simp only [hv, if_true]
          rw [Controller.instanceMappings_setInstanceMappings]
          exact PortMapLocal.hasKey_emplace _ _ _
        · intro other hne
          simp only [hv, if_true]
          rw [Controller.instanceMappings_setInstanceMappings_ne _ _ _ _ hne]
          cases other <;> rfl
  · unfold Controller.addAnyMapping
    cases hc : c.upnpContext_ with
    | none => simp
    | some ctx =>
      cases hv : api.isValid
        (api.addAnyMapping ctx port_desired port_local type use_same_port unique).1 <;>
        simp [hv]

/-- C20: in a build with libupnp and with a context present,
`removeMappings(type)` returns (the embedding is a total function), calls
`removeMapping` on the context once for each mapping that was in the table of
that type, in table order and for nothing else, leaves that table empty and
leaves the table of the other type unchanged; `removeMappings()` leaves both
tables empty. -/
theorem Controller.removeMappings_spec {Mapping Context : Type} (api : Api Mapping Context)
    (c : Controller Mapping Context) (ctx : Context) (type : PortType)
    (hctx : c.upnpContext_ = some ctx) :
    (Controller.removeMappings true api c type).upnpContext_
        = some (((c.instanceMappings type).map Prod.snd).foldl api.removeMapping ctx)
    ∧ (Controller.removeMappings true api c type).instanceMappings type = []
    ∧ (∀ other : PortType, other ≠ type →
        (Controller.removeMappings true api c type).instanceMappings other
          = c.instanceMappings other)
    ∧ (Controller.removeMappingsAll true api c).udpMappings_ = []
    ∧ (Controller.removeMappingsAll true api c).tcpMappings_ = [] := by
  have hfold : ∀ (t : PortMapLocal Mapping) (x : Context),
      t.foldl (fun x e => api.removeMapping x e.2) x = (t.map Prod.snd).foldl api.removeMapping x := by
    intro t x
    rw [List.foldl_map]
  have hone : ∀ (c0 : Controller Mapping Context) (x : Context) (ty : PortType),
      c0.upnpContext_ = some x →
      Controller.removeMappings true api c0 ty
        = Controller.setInstanceMappings
            (Controller.mk
              (some (((c0.instanceMappings ty).map Prod.snd).foldl api.removeMapping x))
              c0.udpMappings_ c0.tcpMappings_)
            ty [] := by
    intro c0 x ty h0
    unfold Controller.removeMappings
    simp only [if_true, h0, Controller.removeLoop_eq, hfold]
  refine ⟨?_, ?_, ?_, ?_, ?_⟩
  · rw [hone c ctx type hctx]
    cases type <;> rfl
  · rw [hone c ctx type hctx]
    exact Controller.instanceMappings_setInstanceMappings _ _ _
  · intro other hne
    rw [hone c ctx type hctx, Controller.instanceMappings_setInstanceMappings_ne _ _ _ _ hne]
    cases other <;> rfl
  · unfold Controller.removeMappingsAll
    rw [if_pos rfl, hone c ctx PortType.UDP hctx]
    rw [hone _ _ PortType.TCP rfl]
    rfl
  · unfold Controller.removeMappingsAll
    rw [if_pos rfl, hone c ctx PortType.UDP hctx]
    rw [hone _ _ PortType.TCP rfl]
    rfl

/-- C20 at a controller with two UDP mappings and one TCP mapping, over a
context that logs its calls: the log after `removeMappings(UDP)` is the two UDP
mappings, each once. -/
theorem Controller.removeMappings_spec_witness :
    sampleController.upnpContext_ = some []
    ∧ (Controller.removeMappings true logApi sampleController PortType.UDP).upnpContext_
        = some [5000, 5002]
    ∧ (Controller.removeMappings true logApi sampleController PortType.UDP).udpMappings_ = []
    ∧ (Controller.removeMappings true logApi sampleController PortType.UDP).tcpMappings_
        = [(80, 80)]
    ∧ (Controller.removeMappingsAll true logApi sampleController).udpMappings_ = []
    ∧ (Controller.removeMappingsAll true logApi sampleController).tcpMappings_ = [] :=
  have h := Controller.removeMappings_spec logApi sampleController [] PortType.UDP rfl
  ⟨rfl, h.1, h.2.1, h.2.2.1 PortType.TCP (by decide), h.2.2.2.1, h.2.2.2.2⟩

end ring.upnp
